import Mathlib

/-!
Verification development for the `daily-blade` audit proxy
(`src/worker/audit-proxy.js`, a Cloudflare Worker with a single `fetch`
handler).

The handler is shallowly embedded below:

* JavaScript values that can occur in a parsed JSON request body are the
  inductive `JsValue` (JSON numbers are modelled as integers; non-integral
  numbers are outside the model and make the modelled `JSON.parse` fail).
* `String(value)` coercion, truthiness, `.trim()`, `.slice`, the two
  `replace` regexes (`/\/+$/`, `/^\s*\.?\/?\.github\/workflows\//`,
  `/^\/+/`) and `encodeURIComponent` are modelled character by character.
* The platform's `JSON.parse` is modelled by the fuel-based recursive
  descent parser `jsonParse`.
* The single outbound `fetch` to the GitHub dispatch endpoint is modelled
  by passing the upstream response (`GhResponse`) as an argument to the
  handler and returning the outbound call description (`Option
  DispatchCall`, `none` when no call is made) alongside the worker's
  response.
-/

namespace AuditProxy

/-- JavaScript values as far as the worker can observe them in a parsed
JSON body.  JSON numbers are modelled as integers. -/
inductive JsValue where
  | jsUndefined : JsValue
  | null : JsValue
  | bool : Bool → JsValue
  | num : Int → JsValue
  | str : String → JsValue
  | arr : List JsValue → JsValue
  | obj : List (String × JsValue) → JsValue

/-- JavaScript truthiness of a `JsValue`. -/
def truthy : JsValue → Bool
  | .jsUndefined => false
  | .null => false
  | .bool b => b
  | .num n => n != 0
  | .str s => s != ""
  | .arr _ => true
  | .obj _ => true

/-- Property access `v.k`: objects yield the stored value (for duplicate
keys, as produced by `JSON.parse`, the last occurrence wins), everything
else yields `undefined`. -/
def getField (v : JsValue) (k : String) : JsValue :=
  match v with
  | .obj fs =>
    match (fs.filter (fun kv => kv.1 == k)).getLast? with
    | some kv => kv.2
    | none => .jsUndefined
  | _ => .jsUndefined

mutual

/-- The JavaScript `String(value)` coercion. -/
def jsToString : JsValue → String
  | .jsUndefined => "undefined"
  | .null => "null"
  | .bool true => "true"
  | .bool false => "false"
  | .num n => toString n
  | .str s => s
  | .arr xs => String.intercalate "," (jsToStringElems xs)
  | .obj _ => "[object Object]"

/-- `Array.prototype.toString` coerces each element, except that `null`
and `undefined` elements become the empty string. -/
def jsToStringElems : List JsValue → List String
  | [] => []
  | .jsUndefined :: vs => "" :: jsToStringElems vs
  | .null :: vs => "" :: jsToStringElems vs
  | v :: vs => jsToString v :: jsToStringElems vs

end

/-- The JavaScript whitespace class used by `String.prototype.trim` and
by `\s` in regular expressions. -/
def isJsWs (c : Char) : Bool :=
  c.val == 0x09 || c.val == 0x0a || c.val == 0x0b || c.val == 0x0c ||
  c.val == 0x0d || c.val == 0x20 || c.val == 0xa0 || c.val == 0x1680 ||
  (0x2000 ≤ c.val && c.val ≤ 0x200a) || c.val == 0x2028 || c.val == 0x2029 ||
  c.val == 0x202f || c.val == 0x205f || c.val == 0x3000 || c.val == 0xfeff

/-- Drop the longest run of `p`-satisfying characters from the end. -/
def dropRightWhile (p : Char → Bool) (l : List Char) : List Char :=
  (l.reverse.dropWhile p).reverse

/-- `String.prototype.trim` on the character list. -/
def trimChars (l : List Char) : List Char :=
  dropRightWhile isJsWs (l.dropWhile isJsWs)

/-- The JavaScript `.trim()`. -/
def jsTrim (s : String) : String :=
  ⟨trimChars s.data⟩

/-- The single-quote character, `"'"`. -/
def squote : Char := Char.ofNat 39

/-- `s.startsWith(q) && s.endsWith(q) && s.length >= 2` for a one-character
quote `q`. -/
def quoteWrapped (s : String) (q : Char) : Bool :=
  s.data.head? == some q && s.data.getLast? == some q && decide (2 ≤ s.length)

/-- `s.slice(1, -1)`. -/
def sliceInner (s : String) : String :=
  ⟨(s.data.drop 1).dropLast⟩

/-- The core of `cleanText` on an already-coerced string: trim, strip one
layer of surrounding matching quotes, trim again.  From
`src/worker/audit-proxy.js` lines 23–33. -/
def cleanStr (s0 : String) : String :=
  let s := jsTrim s0
  if quoteWrapped s '"' || quoteWrapped s squote then jsTrim (sliceInner s)
  else s

/-- `cleanText` from `src/worker/audit-proxy.js`: `undefined`/`null`
become `''`, anything else is coerced with `String(value)` and cleaned. -/
def cleanText (value : JsValue) : String :=
  match value with
  | .jsUndefined => ""
  | .null => ""
  | v => cleanStr (jsToString v)

/-- An environment binding (Cloudflare vars/secrets are strings; an unset
binding reads as `undefined`). -/
def envVal : Option String → JsValue
  | none => .jsUndefined
  | some s => .str s

/-- JavaScript truthiness of an environment binding. -/
def envTruthy (v : Option String) : Bool :=
  match v with
  | none => false
  | some s => s != ""

/-- The JavaScript `a || b` default for strings (`a` falsy iff empty). -/
def orDefault (s d : String) : String :=
  if s == "" then d else s

/-- The literal `.github/workflows/` of the workflow-prefix regex. -/
def wfLit : List Char := ".github/workflows/".data

/-- After the `\s*` part, the regex `\.?\/?\.github\/workflows\//` can
consume one of four mutually exclusive prefixes (they differ pairwise in
their first or second character), so no backtracking ambiguity exists:
return the remainder if one matches. -/
def stripWfAfterWs (l : List Char) : Option (List Char) :=
  if List.isPrefixOf ('.' :: '/' :: wfLit) l then some (l.drop (wfLit.length + 2))
  else if List.isPrefixOf ('.' :: wfLit) l then some (l.drop (wfLit.length + 1))
  else if List.isPrefixOf ('/' :: wfLit) l then some (l.drop (wfLit.length + 1))
  else if List.isPrefixOf wfLit l then some (l.drop wfLit.length)
  else none

/-- `s.replace(/^\s*\.?\/?\.github\/workflows\//, '')`: if the anchored
pattern matches, the whole match (leading whitespace included) is removed;
otherwise the string is returned unchanged. -/
def stripWfDir (s : String) : String :=
  match stripWfAfterWs (s.data.dropWhile isJsWs) with
  | some rest => ⟨rest⟩
  | none => s

/-- `s.replace(/^\/+/, '')`. -/
def stripLeadingSlashes (s : String) : String :=
  ⟨s.data.dropWhile (fun c => c == '/')⟩

/-- The workflow-identifier pipeline applied to `workflowInput` in
`src/worker/audit-proxy.js` lines 83–87: strip the `.github/workflows/`
prefix, strip leading slashes, trim. -/
def sanitizeWorkflowStr (s : String) : String :=
  jsTrim (stripLeadingSlashes (stripWfDir s))

/-! ## A model of the platform's `JSON.parse`

Recursive-descent parser over the character list, structurally recursive
on a fuel argument that is amply larger than the input length.  JSON
numbers are accepted only when integral (no fraction/exponent): the model
treats non-integral numbers as a parse failure. -/

/-- Whitespace allowed by the JSON grammar. -/
def isJsonWs (c : Char) : Bool :=
  c == ' ' || c.val == 0x09 || c.val == 0x0a || c.val == 0x0d

/-- Skip JSON whitespace. -/
def skipWsJson (l : List Char) : List Char := l.dropWhile isJsonWs

/-- Opening brace character. -/
def lbrace : Char := Char.ofNat 0x7b

/-- Closing brace character. -/
def rbrace : Char := Char.ofNat 0x7d

/-- Hexadecimal digit value. -/
def hexVal (c : Char) : Option Nat :=
  if '0' ≤ c && c ≤ '9' then some (c.toNat - 48)
  else if 'a' ≤ c && c ≤ 'f' then some (c.toNat - 87)
  else if 'A' ≤ c && c ≤ 'F' then some (c.toNat - 55)
  else none

/-- Decimal digit run to a natural number. -/
def digitsToNat (ds : List Char) : Nat :=
  ds.foldl (fun a c => a * 10 + (c.toNat - 48)) 0

/-- One-character JSON string escapes. -/
def escChar (e : Char) : Option Char :=
  if e == '"' then some '"'
  else if e == '\\' then some '\\'
  else if e == '/' then some '/'
  else if e == 'b' then some (Char.ofNat 8)
  else if e == 'f' then some (Char.ofNat 12)
  else if e == 'n' then some (Char.ofNat 10)
  else if e == 'r' then some (Char.ofNat 13)
  else if e == 't' then some (Char.ofNat 9)
  else none

/-- Body of a JSON string after the opening quote; returns the decoded
string and the remainder after the closing quote. -/
def parseStrChars : Nat → List Char → List Char → Option (String × List Char)
  | 0, _, _ => none
  | fuel + 1, acc, l =>
    match l with
    | [] => none
    | '"' :: r => some (⟨acc.reverse⟩, r)
    | '\\' :: 'u' :: a :: b :: c :: d :: r =>
      match hexVal a, hexVal b, hexVal c, hexVal d with
      | some ha, some hb, some hc, some hd =>
        parseStrChars fuel (Char.ofNat (((ha * 16 + hb) * 16 + hc) * 16 + hd) :: acc) r
      | _, _, _, _ => none
    | '\\' :: e :: r =>
      match escChar e with
      | some c => parseStrChars fuel (c :: acc) r
      | none => none
    | c :: r => if c.val < 0x20 then none else parseStrChars fuel (c :: acc) r

/-- A JSON number token (integral only) starting at the digit run. -/
def parseNumTok (neg : Bool) (l : List Char) : Option (JsValue × List Char) :=
  let ds := l.takeWhile Char.isDigit
  let r := l.drop ds.length
  if ds.isEmpty then none
  else if decide (1 < ds.length) && ds.head? == some '0' then none
  else
    match r with
    | '.' :: _ => none
    | 'e' :: _ => none
    | 'E' :: _ => none
    | _ => some (.num (if neg then -(digitsToNat ds : Int) else (digitsToNat ds : Int)), r)

mutual

/-- A JSON value, returning the remainder of the input. -/
def parseVal : Nat → List Char → Option (JsValue × List Char)
  | 0, _ => none
  | fuel + 1, l =>
    match skipWsJson l with
    | [] => none
    | c :: r =>
      if c == 'n' then
        match r with
        | 'u' :: 'l' :: 'l' :: r2 => some (.null, r2)
        | _ => none
      else if c == 't' then
        match r with
        | 'r' :: 'u' :: 'e' :: r2 => some (.bool true, r2)
        | _ => none
      else if c == 'f' then
        match r with
        | 'a' :: 'l' :: 's' :: 'e' :: r2 => some (.bool false, r2)
        | _ => none
      else if c == '"' then
        (parseStrChars (r.length + 1) [] r).map (fun p => (JsValue.str p.1, p.2))
      else if c == '[' then
        match skipWsJson r with
        | [] => none
        | d :: r2 =>
          if d == ']' then some (.arr [], r2)
          else (parseElems fuel (d :: r2)).map (fun p => (JsValue.arr p.1, p.2))
      else if c == lbrace then
        match skipWsJson r with
        | [] => none
        | d :: r2 =>
          if d == rbrace then some (.obj [], r2)
          else (parseMembers fuel (d :: r2)).map (fun p => (JsValue.obj p.1, p.2))
      else if c == '-' then parseNumTok true r
      else if c.isDigit then parseNumTok false (c :: r)
      else none

/-- Non-empty comma-separated array elements up to the closing bracket. -/
def parseElems : Nat → List Char → Option (List JsValue × List Char)
  | 0, _ => none
  | fuel + 1, l =>
    match parseVal fuel l with
    | none => none
    | some (v, r) =>
      match skipWsJson r with
      | [] => none
      | d :: r2 =>
        if d == ']' then some ([v], r2)
        else if d == ',' then (parseElems fuel r2).map (fun p => (v :: p.1, p.2))
        else none

/-- Non-empty comma-separated object members up to the closing brace. -/
def parseMembers : Nat → List Char → Option (List (String × JsValue) × List Char)
  | 0, _ => none
  | fuel + 1, l =>
    match skipWsJson l with
    | '"' :: r =>
      match parseStrChars (r.length + 1) [] r with
      | none => none
      | some (k, r1) =>
        match skipWsJson r1 with
        | ':' :: r2 =>
          match parseVal fuel r2 with
          | none => none
          | some (v, r3) =>
            match skipWsJson r3 with
            | [] => none
            | d :: r4 =>
              if d == rbrace then some ([(k, v)], r4)
              else if d == ',' then
                (parseMembers fuel r4).map (fun p => ((k, v) :: p.1, p.2))
              else none
        | _ => none
    | _ => none

end

/-- The modelled `JSON.parse`: parse one value and require only
whitespace to remain. -/
def jsonParse (s : String) : Option JsValue :=
  match parseVal (s.length + 2) s.data with
  | some (v, rest) => if (skipWsJson rest).isEmpty then some v else none
  | none => none

/-! ## The worker's data model -/

/-- The environment bindings the worker reads (`none` models an unset
variable/secret). -/
structure Env where
  GH_TOKEN : Option String
  GH_OWNER : Option String
  GH_REPO : Option String
  GH_WORKFLOW_FILE : Option String
  GH_REF : Option String
  DEV_AUTH_TOKEN : Option String

/-- An inbound HTTP request as far as the handler observes it:
method, URL path, the `X-Dev-Auth` header (`none` when absent), and the
result of `await request.json()` (`none` models a parse exception). -/
structure Request where
  method : String
  pathname : String
  xDevAuth : Option String
  body : Option JsValue

/-- The upstream GitHub response: HTTP status, the
`x-github-request-id` header, and the body text. -/
structure GhResponse where
  status : Nat
  requestIdHeader : Option String
  bodyText : String

/-- `Response.ok` of the Fetch API: status in the range 200–299. -/
def GhResponse.ok (g : GhResponse) : Bool :=
  decide (200 ≤ g.status) && decide (g.status ≤ 299)

/-- The outbound workflow-dispatch call (method is always POST, headers
are fixed except for the bearer credential). -/
structure DispatchCall where
  url : String
  authorization : String
  bodyJson : JsValue

/-- A worker response: status, the JSON value passed to
`JSON.stringify` (`none` for the bodyless 204), and headers. -/
structure WorkerResponse where
  status : Nat
  body : Option JsValue
  headers : List (String × String)

/-- The `corsHeaders` object from `src/worker/audit-proxy.js`. -/
def corsHeaders : List (String × String) :=
  [("Access-Control-Allow-Origin", "*"),
   ("Access-Control-Allow-Methods", "POST,OPTIONS"),
   ("Access-Control-Allow-Headers", "Content-Type,X-Dev-Auth")]

/-- `{ 'Content-Type': 'application/json', ...corsHeaders }`. -/
def jsonHeaders : List (String × String) :=
  ("Content-Type", "application/json") :: corsHeaders

/-- `url.pathname.replace(/\/+$/, '')`: strip the trailing run of
slashes. -/
def normalizePath (p : String) : String :=
  ⟨dropRightWhile (fun c => c == '/') p.data⟩

/-! ## `encodeURIComponent` -/

/-- Characters `encodeURIComponent` leaves unencoded. -/
def isUriUnreserved (c : Char) : Bool :=
  c.isAlphanum || c == '-' || c == '_' || c == '.' || c == '!' || c == '~' ||
  c == '*' || c.val == 39 || c == '(' || c == ')'

/-- Uppercase hexadecimal digit. -/
def hexDigitU (n : Nat) : Char :=
  if n < 10 then Char.ofNat (48 + n) else Char.ofNat (55 + n)

/-- UTF-8 bytes of a character. -/
def utf8Bytes (c : Char) : List Nat :=
  let n := c.toNat
  if n < 0x80 then [n]
  else if n < 0x800 then [0xc0 ||| (n >>> 6), 0x80 ||| (n &&& 0x3f)]
  else if n < 0x10000 then
    [0xe0 ||| (n >>> 12), 0x80 ||| ((n >>> 6) &&& 0x3f), 0x80 ||| (n &&& 0x3f)]
  else
    [0xf0 ||| (n >>> 18), 0x80 ||| ((n >>> 12) &&& 0x3f),
     0x80 ||| ((n >>> 6) &&& 0x3f), 0x80 ||| (n &&& 0x3f)]

/-- Percent-encode one character. -/
def pctEncodeChar (c : Char) : String :=
  (utf8Bytes c).foldl
    (fun acc b => acc ++ "%" ++ ⟨[hexDigitU (b / 16), hexDigitU (b % 16)]⟩) ""

/-- The JavaScript `encodeURIComponent`. -/
def encodeURIComponent (s : String) : String :=
  s.data.foldl
    (fun acc c =>
      acc ++ (if isUriUnreserved c then String.singleton c else pctEncodeChar c)) ""

/-! ## The `fetch` handler, stage by stage -/

/-- Routing: `request.method === 'POST' &&
url.pathname.replace(/\/+$/, '') === '/audit'`. -/
def routeOk (req : Request) : Bool :=
  req.method == "POST" && normalizePath req.pathname == "/audit"

/-- The auth gate: entered only when `env.DEV_AUTH_TOKEN` is truthy;
then `(request.headers.get('X-Dev-Auth') || '') === env.DEV_AUTH_TOKEN`. -/
def authOk (env : Env) (req : Request) : Bool :=
  match env.DEV_AUTH_TOKEN with
  | none => true
  | some t => if t == "" then true else req.xDevAuth.getD "" == t

/-- `String(body && body.k ? body.k : '').trim()` for a body field `k`
(`body = none` models the caught JSON-parse exception, i.e. `body = null`). -/
def bodyField (body : Option JsValue) (k : String) : String :=
  match body with
  | some b =>
    if truthy b && truthy (getField b k) then jsTrim (jsToString (getField b k))
    else ""
  | none => ""

/-- The `date` variable of the handler. -/
def reqDate (req : Request) : String := bodyField req.body "date"

/-- The `title` variable of the handler. -/
def reqTitle (req : Request) : String := bodyField req.body "title"

/-- Body validation: `!(!date || !title)`. -/
def bodyOk (req : Request) : Bool :=
  reqDate req != "" && reqTitle req != ""

/-- The `owner` variable: `cleanText(env.GH_OWNER)`. -/
def owner (env : Env) : String := cleanText (envVal env.GH_OWNER)

/-- The `repo` variable: `cleanText(env.GH_REPO)`. -/
def repo (env : Env) : String := cleanText (envVal env.GH_REPO)

/-- The `workflow` variable: `(cleanText(env.GH_WORKFLOW_FILE) ||
'audit.yml')` through the prefix/slash-strip/trim pipeline. -/
def workflow (env : Env) : String :=
  sanitizeWorkflowStr (orDefault (cleanText (envVal env.GH_WORKFLOW_FILE)) "audit.yml")

/-- The `ref` variable: `cleanText(env.GH_REF) || 'main'`. -/
def refName (env : Env) : String :=
  orDefault (cleanText (envVal env.GH_REF)) "main"

/-- Configuration check: `!(!env.GH_TOKEN || !owner || !repo)`. -/
def configOk (env : Env) : Bool :=
  envTruthy env.GH_TOKEN && owner env != "" && repo env != ""

/-- The `apiUrl` template string. -/
def apiUrl (env : Env) : String :=
  "https://api.github.com/repos/" ++ encodeURIComponent (owner env) ++ "/" ++
  encodeURIComponent (repo env) ++ "/actions/workflows/" ++
  encodeURIComponent (workflow env) ++ "/dispatches"

/-- `msg`: `JSON.parse(raw)` then `j && j.message ? j.message : ''`,
with `''` on a parse exception. -/
def bestEffortMessage (raw : String) : JsValue :=
  match jsonParse raw with
  | some j => if truthy j && truthy (getField j "message") then getField j "message" else .str ""
  | none => .str ""

/-- `raw ? raw.slice(0, 2000) : ''` (equals `take 2000` in both cases). -/
def rawSlice (raw : String) : String :=
  if raw == "" then "" else ⟨raw.data.take 2000⟩

/-- The `fetch` handler of `src/worker/audit-proxy.js`, returning the
worker response together with the outbound dispatch call when one is
made (`none` on every early exit). -/
def handle (env : Env) (req : Request) (gh : GhResponse) :
    WorkerResponse × Option DispatchCall :=
  if req.method == "OPTIONS" then
    ({ status := 204, body := none, headers := corsHeaders }, none)
  else if !routeOk req then
    ({ status := 404, body := some (.obj [("error", .str "Not found")]),
       headers := jsonHeaders }, none)
  else if !authOk env req then
    ({ status := 401, body := some (.obj [("error", .str "Unauthorized")]),
       headers := jsonHeaders }, none)
  else if !bodyOk req then
    ({ status := 400, body := some (.obj [("error", .str "Missing date/title")]),
       headers := jsonHeaders }, none)
  else if !configOk env then
    ({ status := 500,
       body := some (.obj
         [("error", .str "Worker not configured"),
          ("missing", .obj
            [("GH_TOKEN", .bool (!envTruthy env.GH_TOKEN)),
             ("GH_OWNER", .bool (owner env == "")),
             ("GH_REPO", .bool (repo env == ""))])]),
       headers := jsonHeaders }, none)
  else if !gh.ok then
    ({ status := 502,
       body := some (.obj
         [("error", .str "GitHub dispatch failed"),
          ("status", .num gh.status),
          ("message", bestEffortMessage gh.bodyText),
          ("request_id", .str (gh.requestIdHeader.getD "")),
          ("raw", .str (rawSlice gh.bodyText)),
          ("config", .obj
            [("owner", .str (owner env)), ("repo", .str (repo env)),
             ("workflow", .str (workflow env)), ("ref", .str (refName env))])]),
       headers := jsonHeaders },
     some { url := apiUrl env,
            authorization := "Bearer " ++ env.GH_TOKEN.getD "",
            bodyJson := .obj
              [("ref", .str (refName env)),
               ("inputs", .obj
                 [("date", .str (reqDate req)), ("title", .str (reqTitle req))])] })
  else
    ({ status := 200, body := some (.obj [("ok", .bool true), ("queued", .bool true)]),
       headers := jsonHeaders },
     some { url := apiUrl env,
            authorization := "Bearer " ++ env.GH_TOKEN.getD "",
            bodyJson := .obj
              [("ref", .str (refName env)),
               ("inputs", .obj
                 [("date", .str (reqDate req)), ("title", .str (reqTitle req))])] })

/-- Field lookup in a response body. -/
def respField (r : WorkerResponse) (k : String) : JsValue :=
  match r.body with
  | some b => getField b k
  | none => .jsUndefined

/-! ## Lemmas about trimming -/

theorem dropWhile_head_false (p : Char → Bool) :
    ∀ (l : List Char) (a : Char), (l.dropWhile p).head? = some a → p a = false := by
  intro l
  induction l with
  | nil => intro a h; simp [List.dropWhile] at h
  | cons b t ih =>
    intro a h
    by_cases hb : p b
    · rw [List.dropWhile_cons_of_pos hb] at h
      exact ih a h
    · rw [List.dropWhile_cons_of_neg hb] at h
      simp at h
      rw [← h]
      exact Bool.eq_false_iff.mpr hb

theorem dropWhile_eq_self_of_head (p : Char → Bool) (l : List Char)
    (h : ∀ a, l.head? = some a → p a = false) : l.dropWhile p = l := by
  cases l with
  | nil => rfl
  | cons a t =>
    have ha := h a rfl
    rw [List.dropWhile_cons_of_neg (by simp [ha])]

theorem dropWhile_idem (p : Char → Bool) (l : List Char) :
    (l.dropWhile p).dropWhile p = l.dropWhile p :=
  dropWhile_eq_self_of_head p _ (dropWhile_head_false p l)

theorem dropWhile_append_last (p : Char → Bool) (b : Char) (hb : p b = false) :
    ∀ l : List Char, List.dropWhile p (l ++ [b]) = List.dropWhile p l ++ [b] := by
  intro l
  induction l with
  | nil => simp [List.dropWhile, hb]
  | cons a t ih =>
    by_cases ha : p a
    · rw [List.cons_append, List.dropWhile_cons_of_pos ha,
        List.dropWhile_cons_of_pos ha, ih]
    · rw [List.cons_append, List.dropWhile_cons_of_neg ha,
        List.dropWhile_cons_of_neg ha, List.cons_append]

theorem dropRightWhile_cons_of_false (p : Char → Bool) (a : Char) (t : List Char)
    (ha : p a = false) : dropRightWhile p (a :: t) = a :: dropRightWhile p t := by
  unfold dropRightWhile
  rw [List.reverse_cons, dropWhile_append_last p a ha, List.reverse_append,
    List.reverse_singleton]
  rfl

theorem dropRightWhile_idem (p : Char → Bool) (l : List Char) :
    dropRightWhile p (dropRightWhile p l) = dropRightWhile p l := by
  unfold dropRightWhile
  rw [List.reverse_reverse, dropWhile_idem]

theorem trimChars_idem (l : List Char) : trimChars (trimChars l) = trimChars l := by
  unfold trimChars
  cases hm : l.dropWhile isJsWs with
  | nil => simp [dropRightWhile]
  | cons a t =>
    have ha : isJsWs a = false := dropWhile_head_false isJsWs l a (by rw [hm]; rfl)
    rw [dropRightWhile_cons_of_false isJsWs a t ha,
      dropWhile_eq_self_of_head isJsWs (a :: dropRightWhile isJsWs t)
        (by intro x hx; simp at hx; rw [← hx]; exact ha),
      dropRightWhile_cons_of_false isJsWs a _ ha, dropRightWhile_idem]

theorem jsTrim_idem (s : String) : jsTrim (jsTrim s) = jsTrim s :=
  congrArg String.mk (trimChars_idem s.data)

theorem cleanStr_trimmed (s : String) : jsTrim (cleanStr s) = cleanStr s := by
  unfold cleanStr
  dsimp only
  split
  · exact jsTrim_idem _
  · exact jsTrim_idem _

/-! ## Concrete fixtures -/

/-- A fully configured environment with the auth gate unset. -/
def envOpen : Env :=
  { GH_TOKEN := some "t", GH_OWNER := some "o", GH_REPO := some "r",
    GH_WORKFLOW_FILE := none, GH_REF := none, DEV_AUTH_TOKEN := none }

/-- `envOpen` with the auth gate configured to `"s"`. -/
def envGated : Env := { envOpen with DEV_AUTH_TOKEN := some "s" }

/-- `envOpen` with the owner binding unset. -/
def envNoOwner : Env := { envOpen with GH_OWNER := none }

/-- An upstream 204 (success) with an empty body. -/
def gh204 : GhResponse := { status := 204, requestIdHeader := none, bodyText := "" }

/-- An upstream 404 whose JSON body has a falsy `message` field. -/
def ghMsg0 : GhResponse :=
  { status := 404, requestIdHeader := none, bodyText := "\x7b\"message\":0\x7d" }

/-- A well-formed `POST /audit` request. -/
def reqGood : Request :=
  { method := "POST", pathname := "/audit", xDevAuth := none,
    body := some (.obj [("date", .str "2026-01-01"), ("title", .str "The Crimson Ledger")]) }

/-- A `POST /audit` request whose `date` is the (truthy) number 5. -/
def reqNumDate : Request :=
  { method := "POST", pathname := "/audit", xDevAuth := none,
    body := some (.obj [("date", .num 5), ("title", .str "x")]) }

/-- An `OPTIONS` request to an unrelated path. -/
def reqOptions : Request :=
  { method := "OPTIONS", pathname := "/nope", xDevAuth := none, body := none }

/-- A `GET /audit` request. -/
def reqGet : Request :=
  { method := "GET", pathname := "/audit", xDevAuth := none, body := none }

/-- A `POST /audit` request with an unparsable body. -/
def reqNoBody : Request :=
  { method := "POST", pathname := "/audit", xDevAuth := none, body := none }

/-! ## Helper lemmas about the handler's stages -/

theorem method_beq_options_eq_false (req : Request) (h : routeOk req = true) :
    (req.method == "OPTIONS") = false := by
  have h1 : req.method = "POST" := by
    simp [routeOk] at h
    exact h.1
  rw [h1]
  decide

theorem auth_pass_status_ne_401 (env : Env) (req : Request) (gh : GhResponse)
    (hauth : authOk env req = true) : (handle env req gh).1.status ≠ 401 := by
  unfold handle
  simp only [hauth, Bool.not_true]
  split
  · simp
  · split
    · simp
    · split
      · simp_all
      · split
        · simp
        · split
          · simp
          · split
            · simp
            · simp

/-! ## The claims -/

/-- C9: every request with method `OPTIONS` — regardless of path, auth
header, or configured auth secret — returns status 204 with an empty body
and only the CORS headers, bypassing routing, auth, and body validation,
and makes no outbound call. -/
theorem C9_options (env : Env) (req : Request) (gh : GhResponse)
    (h : req.method = "OPTIONS") :
    handle env req gh = ({ status := 204, body := none, headers := corsHeaders }, none) := by
  unfold handle
  rw [h]
  simp

/-- Witness for C9 at a concrete `OPTIONS` request to a non-`/audit` path
in an auth-gated environment. -/
theorem C9_options_witness :
    handle envGated reqOptions gh204 =
      ({ status := 204, body := none, headers := corsHeaders }, none) :=
  C9_options envGated reqOptions gh204 rfl

/-- C10: setting `DEV_AUTH_TOKEN` to the empty string disables the auth
gate (the gate is guarded by truthiness): the handler never answers 401
and behaves exactly as with the token unset. -/
theorem C10_empty_token (env : Env) (req : Request) (gh : GhResponse)
    (h : env.DEV_AUTH_TOKEN = some "") :
    (handle env req gh).1.status ≠ 401 ∧
    handle env req gh = handle { env with DEV_AUTH_TOKEN := none } req gh := by
  have hauth : authOk env req = true := by simp [authOk, h]
  have hauth2 : authOk { env with DEV_AUTH_TOKEN := none } req = true := by
    simp [authOk]
  refine ⟨auth_pass_status_ne_401 env req gh hauth, ?_⟩
  unfold handle
  simp only [hauth, hauth2]
  rfl

/-- Witness for C10 at a concrete request carrying a header the empty
secret would not match. -/
theorem C10_empty_token_witness :
    (handle { envOpen with DEV_AUTH_TOKEN := some "" }
      { reqGood with xDevAuth := some "wrong" } gh204).1.status ≠ 401 :=
  (C10_empty_token { envOpen with DEV_AUTH_TOKEN := some "" }
    { reqGood with xDevAuth := some "wrong" } gh204 rfl).1

/-- C4: when a non-empty auth secret is configured, every `POST /audit`
request (after trailing-slash normalization) whose `X-Dev-Auth` header
value — missing headers reading as `''` — differs from the secret is
answered 401 with body `{ error: "Unauthorized" }`; when no truthy secret is
configured, no request is ever answered 401. -/
theorem C4_auth_gate :
    (∀ (env : Env) (req : Request) (gh : GhResponse) (t : String),
        env.DEV_AUTH_TOKEN = some t → t ≠ "" → req.method = "POST" →
        normalizePath req.pathname = "/audit" → req.xDevAuth.getD "" ≠ t →
        (handle env req gh).1.status = 401 ∧
        (handle env req gh).1.body = some (.obj [("error", .str "Unauthorized")])) ∧
    (∀ (env : Env) (req : Request) (gh : GhResponse),
        envTruthy env.DEV_AUTH_TOKEN = false → (handle env req gh).1.status ≠ 401) := by
  constructor
  · intro env req gh t htok hne hm hp hhdr
    have hroute : routeOk req = true := by simp [routeOk, hm, hp]
    have hopt := method_beq_options_eq_false req hroute
    have hauth : authOk env req = false := by
      rw [authOk, htok]
      simp [hne, hhdr]
    unfold handle
    simp [hopt, hroute, hauth]
  · intro env req gh h
    have hauth : authOk env req = true := by
      rw [authOk]
      cases htok : env.DEV_AUTH_TOKEN with
      | none => rfl
      | some t =>
        rw [htok] at h
        simp [envTruthy] at h
        simp [h]
    exact auth_pass_status_ne_401 env req gh hauth

/-- Witness for C4: a gated environment rejects a missing header with
401, and an ungated one never answers 401. -/
theorem C4_auth_gate_witness :
    (handle envGated reqGood gh204).1.status = 401 ∧
    (handle envOpen reqGood gh204).1.status ≠ 401 :=
  ⟨(C4_auth_gate.1 envGated reqGood gh204 "s" rfl (by decide) rfl rfl (by decide)).1,
   C4_auth_gate.2 envOpen reqGood gh204 rfl⟩

/-- C8: every response produced by the handler, on every branch, carries
the three CORS headers. -/
theorem C8_cors (env : Env) (req : Request) (gh : GhResponse) :
    ("Access-Control-Allow-Origin", "*") ∈ (handle env req gh).1.headers ∧
    ("Access-Control-Allow-Methods", "POST,OPTIONS") ∈ (handle env req gh).1.headers ∧
    ("Access-Control-Allow-Headers", "Content-Type,X-Dev-Auth") ∈ (handle env req gh).1.headers := by
  unfold handle
  split
  · simp [corsHeaders]
  · split
    · simp [jsonHeaders, corsHeaders]
    · split
      · simp [jsonHeaders, corsHeaders]
      · split
        · simp [jsonHeaders, corsHeaders]
        · split
          · simp [jsonHeaders, corsHeaders]
          · split
            · simp [jsonHeaders, corsHeaders]
            · simp [jsonHeaders, corsHeaders]

/-- C2: for every `POST /audit` request passing routing, auth, and body
validation, if the credential is falsy or the sanitized owner or
repository is empty, the handler answers 500 with error
`"Worker not configured"` and a `missing` object whose `GH_TOKEN`,
`GH_OWNER`, `GH_REPO` flags are each `true` exactly when that input is
missing/empty. -/
theorem C2_missing_config (env : Env) (req : Request) (gh : GhResponse)
    (hroute : routeOk req = true) (hauth : authOk env req = true)
    (hbody : bodyOk req = true)
    (hmiss : envTruthy env.GH_TOKEN = false ∨ owner env = "" ∨ repo env = "") :
    (handle env req gh).1.status = 500 ∧
    respField (handle env req gh).1 "error" = .str "Worker not configured" ∧
    (getField (respField (handle env req gh).1 "missing") "GH_TOKEN" = .bool true ↔
      envTruthy env.GH_TOKEN = false) ∧
    (getField (respField (handle env req gh).1 "missing") "GH_OWNER" = .bool true ↔
      owner env = "") ∧
    (getField (respField (handle env req gh).1 "missing") "GH_REPO" = .bool true ↔
      repo env = "") := by
  have hopt := method_beq_options_eq_false req hroute
  have hconf : configOk env = false := by
    rcases hmiss with h | h | h <;> simp [configOk, h]
  unfold handle
  simp [hopt, hroute, hauth, hbody, hconf, respField, getField, beq_iff_eq]

/-- Witness for C2 at a concrete environment whose owner is unset. -/
theorem C2_missing_config_witness :
    (handle envNoOwner reqGood gh204).1.status = 500 :=
  (C2_missing_config envNoOwner reqGood gh204 rfl rfl rfl (Or.inr (Or.inl rfl))).1

/-- C3 counterexample: the claim demands 400 whenever `date` is a
non-string, but the handler coerces with `String(...)`: a `POST /audit`
request (routing passes) with `date` the number 5 is accepted and — with
valid configuration and a 204 upstream — answered 200, not 400. -/
theorem C3_counterexample :
    reqNumDate.method = "POST" ∧ normalizePath reqNumDate.pathname = "/audit" ∧
    (handle envOpen reqNumDate gh204).1.status = 200 ∧
    (handle envOpen reqNumDate gh204).1.status ≠ 400 :=
  ⟨rfl, rfl, rfl, by decide⟩

/-- C3 (amended): for every `POST /audit` request (after trailing-slash
normalization) that passes the auth gate, if the body fails JSON parsing
or the `date` or `title` field is absent, falsy, or coerces to a string
that is empty after trim, the handler answers 400 with body
`{ error: "Missing date/title" }`. -/
theorem C3_body_validation (env : Env) (req : Request) (gh : GhResponse)
    (hm : req.method = "POST") (hp : normalizePath req.pathname = "/audit")
    (hauth : authOk env req = true)
    (hmiss : reqDate req = "" ∨ reqTitle req = "") :
    (handle env req gh).1.status = 400 ∧
    (handle env req gh).1.body = some (.obj [("error", .str "Missing date/title")]) := by
  have hroute : routeOk req = true := by simp [routeOk, hm, hp]
  have hopt := method_beq_options_eq_false req hroute
  have hbody : bodyOk req = false := by
    rcases hmiss with h | h <;> simp [bodyOk, h]
  unfold handle
  simp [hopt, hroute, hauth, hbody]

/-- Witness for C3 (amended) at a concrete request whose body failed to
parse. -/
theorem C3_body_validation_witness :
    (handle envOpen reqNoBody gh204).1.status = 400 :=
  (C3_body_validation envOpen reqNoBody gh204 rfl rfl rfl (Or.inl rfl)).1

/-- C5 counterexample: the claim quantifies over every request with
method ≠ POST, but an `OPTIONS` request is answered 204, not 404. -/
theorem C5_counterexample :
    reqOptions.method ≠ "POST" ∧
    (handle envOpen reqOptions gh204).1.status = 204 ∧
    (handle envOpen reqOptions gh204).1.status ≠ 404 :=
  ⟨by decide, rfl, by decide⟩

/-- C5 (amended): for every non-`OPTIONS` request where the method is not
POST or the path after stripping trailing slashes is not `/audit`, the
handler answers 404 with body `{ error: "Not found" }`. -/
theorem C5_routing (env : Env) (req : Request) (gh : GhResponse)
    (hopt : req.method ≠ "OPTIONS")
    (h : req.method ≠ "POST" ∨ normalizePath req.pathname ≠ "/audit") :
    (handle env req gh).1.status = 404 ∧
    (handle env req gh).1.body = some (.obj [("error", .str "Not found")]) := by
  have hopt2 : (req.method == "OPTIONS") = false := by
    simp [hopt]
  have hroute : routeOk req = false := by
    unfold routeOk
    rcases h with h | h <;> simp [h]
  unfold handle
  simp [hopt2, hroute]

/-- Witness for C5 (amended) at a concrete `GET /audit` request. -/
theorem C5_routing_witness :
    (handle envOpen reqGet gh204).1.status = 404 :=
  (C5_routing envOpen reqGet gh204 (by decide) (Or.inl (by decide))).1

theorem rawSlice_eq_take (raw : String) : rawSlice raw = ⟨raw.data.take 2000⟩ := by
  unfold rawSlice
  split
  · next h =>
    have e : raw = "" := by simpa using h
    rw [e]
    rfl
  · rfl

theorem take2000_length_le (l : List Char) : (⟨l.take 2000⟩ : String).length ≤ 2000 := by
  show (l.take 2000).length ≤ 2000
  rw [List.length_take]
  exact min_le_left _ _

/-- C1 counterexample: with upstream body `{"message":0}` the `message`
field is present and parses to the number 0, but the handler's envelope
carries the empty string (the code tests truthiness, not presence). -/
theorem C1_counterexample :
    jsonParse ghMsg0.bodyText = some (.obj [("message", .num 0)]) ∧
    (handle envOpen reqGood ghMsg0).1.status = 502 ∧
    respField (handle envOpen reqGood ghMsg0).1 "message" = .str "" ∧
    JsValue.str "" ≠ JsValue.num 0 :=
  ⟨rfl, rfl, rfl, fun h => JsValue.noConfusion h⟩

/-- C1 (amended): for every `POST /audit` request passing routing, auth,
body validation, and configuration, a 2xx upstream yields
`200 { ok: true, queued: true }`; a non-2xx upstream yields 502 with
`status` the upstream status, `message` the parsed body's `message` field
when that field is truthy (empty string when the body is unparsable or
the field absent or falsy), and `raw` the body text truncated to at most
2000 characters. -/
theorem C1_response_translation (env : Env) (req : Request) (gh : GhResponse)
    (hroute : routeOk req = true) (hauth : authOk env req = true)
    (hbody : bodyOk req = true) (hconf : configOk env = true) :
    (gh.ok = true →
      (handle env req gh).1.status = 200 ∧
      (handle env req gh).1.body = some (.obj [("ok", .bool true), ("queued", .bool true)])) ∧
    (gh.ok = false →
      (handle env req gh).1.status = 502 ∧
      respField (handle env req gh).1 "status" = .num gh.status ∧
      respField (handle env req gh).1 "message" =
        (match jsonParse gh.bodyText with
          | some j =>
            if truthy j && truthy (getField j "message") then getField j "message"
            else .str ""
          | none => .str "") ∧
      respField (handle env req gh).1 "raw" = .str ⟨gh.bodyText.data.take 2000⟩ ∧
      (⟨gh.bodyText.data.take 2000⟩ : String).length ≤ 2000) := by
  have hopt := method_beq_options_eq_false req hroute
  constructor
  · intro hok
    unfold handle
    simp [hopt, hroute, hauth, hbody, hconf, hok]
  · intro hok
    unfold handle
    simp only [hopt, hroute, hauth, hbody, hconf, hok, Bool.not_true, Bool.not_false,
      Bool.false_eq_true, if_false, if_true]
    refine ⟨?_, ?_, ?_, ?_, take2000_length_le _⟩
    · trivial
    · rfl
    · show bestEffortMessage gh.bodyText = _
      unfold bestEffortMessage
      rfl
    · show JsValue.str (rawSlice gh.bodyText) = _
      rw [rawSlice_eq_take]

/-- Witness for C1 (amended): a 204 upstream is acknowledged with 200 and
a 404 upstream is surfaced as 502. -/
theorem C1_response_translation_witness :
    (handle envOpen reqGood gh204).1.status = 200 ∧
    (handle envOpen reqGood ghMsg0).1.status = 502 :=
  ⟨((C1_response_translation envOpen reqGood gh204 rfl rfl rfl rfl).1 rfl).1,
   ((C1_response_translation envOpen reqGood ghMsg0 rfl rfl rfl rfl).2 rfl).1⟩

/-- The single-quote character as a string. -/
def squoteStr : String := String.singleton squote

/-- C6 counterexample: `cleanText` strips only one layer of quotes, so it
is not idempotent: on `""a""` one application yields `"a"` (still
quote-wrapped) and a second application yields `a`. -/
theorem C6_counterexample :
    cleanStr "\"\"a\"\"" = "\"a\"" ∧ cleanStr (cleanStr "\"\"a\"\"") = "a" ∧
    ("a" : String) ≠ "\"a\"" :=
  ⟨rfl, rfl, by decide⟩

/-- C6 (amended): `cleanText` is idempotent on every string whose cleaned
form is not itself quote-wrapped again, and the workflow pipeline is
idempotent on every string whose sanitized form is not strippable again
(no matching prefix, no leading slash); the spec's two examples hold:
cleaning `" 'owner' "` yields `owner` and the workflow identifier
`.github/workflows/audit.yml` sanitizes to `audit.yml`. -/
theorem C6_sanitizer_idem :
    (∀ s : String,
        (quoteWrapped (cleanStr s) '"' || quoteWrapped (cleanStr s) squote) = false →
        cleanStr (cleanStr s) = cleanStr s) ∧
    (∀ s : String,
        stripWfDir (sanitizeWorkflowStr s) = sanitizeWorkflowStr s →
        (sanitizeWorkflowStr s).data.head? ≠ some '/' →
        sanitizeWorkflowStr (sanitizeWorkflowStr s) = sanitizeWorkflowStr s) ∧
    cleanStr (" " ++ squoteStr ++ "owner" ++ squoteStr ++ " ") = "owner" ∧
    workflow { GH_TOKEN := none, GH_OWNER := none, GH_REPO := none,
               GH_WORKFLOW_FILE := some ".github/workflows/audit.yml",
               GH_REF := none, DEV_AUTH_TOKEN := none } = "audit.yml" := by
  refine ⟨?_, ?_, rfl, rfl⟩
  · intro s h
    have h1 : cleanStr (cleanStr s) =
        if (quoteWrapped (jsTrim (cleanStr s)) '"' ||
            quoteWrapped (jsTrim (cleanStr s)) squote) = true then
          jsTrim (sliceInner (jsTrim (cleanStr s)))
        else jsTrim (cleanStr s) := rfl
    rw [h1, cleanStr_trimmed, h]
    simp
  · intro s h1 h2
    have htrim : jsTrim (sanitizeWorkflowStr s) = sanitizeWorkflowStr s := by
      unfold sanitizeWorkflowStr
      exact jsTrim_idem _
    have h3 : (sanitizeWorkflowStr s).data.dropWhile (fun c => c == '/') =
        (sanitizeWorkflowStr s).data := by
      apply dropWhile_eq_self_of_head
      intro a ha
      have hne : a ≠ '/' := by
        intro e
        rw [e] at ha
        exact h2 ha
      simp [hne]
    calc sanitizeWorkflowStr (sanitizeWorkflowStr s)
        = jsTrim (stripLeadingSlashes (stripWfDir (sanitizeWorkflowStr s))) := rfl
      _ = jsTrim (stripLeadingSlashes (sanitizeWorkflowStr s)) := by rw [h1]
      _ = jsTrim ⟨(sanitizeWorkflowStr s).data.dropWhile (fun c => c == '/')⟩ := rfl
      _ = jsTrim ⟨(sanitizeWorkflowStr s).data⟩ := by rw [h3]
      _ = jsTrim (sanitizeWorkflowStr s) := rfl
      _ = sanitizeWorkflowStr s := htrim

/-- Witness for C6 (amended) at plain strings with nothing to strip. -/
theorem C6_sanitizer_idem_witness :
    cleanStr (cleanStr "abc") = cleanStr "abc" ∧
    sanitizeWorkflowStr (sanitizeWorkflowStr "x.yml") = sanitizeWorkflowStr "x.yml" :=
  ⟨C6_sanitizer_idem.1 "abc" (by decide),
   C6_sanitizer_idem.2.1 "x.yml" (by decide) (by decide)⟩

/-- C7: the handler makes an outbound dispatch call exactly when the
OPTIONS bypass does not fire and routing, auth, body validation, and
configuration all pass (the call slot is an `Option`, so at most one call
is ever made), and it makes none on any 204/404/401/400/500 early
exit. -/
theorem C7_single_dispatch (env : Env) (req : Request) (gh : GhResponse) :
    ((handle env req gh).2.isSome = true ↔
      (req.method ≠ "OPTIONS" ∧ routeOk req = true ∧ authOk env req = true ∧
       bodyOk req = true ∧ configOk env = true)) ∧
    ((handle env req gh).1.status = 204 ∨ (handle env req gh).1.status = 404 ∨
     (handle env req gh).1.status = 401 ∨ (handle env req gh).1.status = 400 ∨
     (handle env req gh).1.status = 500 →
     (handle env req gh).2 = none) := by
  cases h1 : (req.method == "OPTIONS") with
  | true =>
    have e1 : req.method = "OPTIONS" := by simpa using h1
    unfold handle
    simp [h1, e1]
  | false =>
    have e1 : ¬req.method = "OPTIONS" := by simpa using h1
    cases h2 : routeOk req with
    | false => unfold handle; simp [h1, e1, h2]
    | true =>
      cases h3 : authOk env req with
      | false => unfold handle; simp [h1, e1, h2, h3]
      | true =>
        cases h4 : bodyOk req with
        | false => unfold handle; simp [h1, e1, h2, h3, h4]
        | true =>
          cases h5 : configOk env with
          | false => unfold handle; simp [h1, e1, h2, h3, h4, h5]
          | true =>
            cases h6 : gh.ok with
            | false => unfold handle; simp [h1, e1, h2, h3, h4, h5, h6]
            | true => unfold handle; simp [h1, e1, h2, h3, h4, h5, h6]

/-- Witness for C7 at a concrete 404 early exit. -/
theorem C7_single_dispatch_witness :
    (handle envOpen reqGet gh204).2 = none :=
  (C7_single_dispatch envOpen reqGet gh204).2 (Or.inr (Or.inl rfl))

end AuditProxy
